import Mathlib

/-!
Shallow embedding of `zumy_ros/src/kalman_filter.py` (class `KalmanFilter`)
and verification of the specification claims about it.

Floating-point numbers are modelled as real numbers.  The two places where
float semantics matter beyond real arithmetic are modelled explicitly:
`numpy.linalg.inv` raises `LinAlgError` on an exactly singular matrix, which
is modelled by `measurementUpdate` returning `none` (the exception is not
caught anywhere in the node, so `none` is a crash of the loop); and
`np.mod(x, 0)`, which is NaN in floating point, is modelled by the
`Option`-valued `npModF` (with `none` standing for NaN), used by the
NaN-propagation development at the end of the definitions.
-/

noncomputable section

namespace KF

open Matrix

/-- A 3-vector as carried by `geometry_msgs` `Vector3` fields. -/
structure Vec3 where
  x : ℝ
  y : ℝ
  z : ℝ

/-- A quaternion as carried by `geometry_msgs` `Quaternion` fields.
ROS message fields default-initialize to zero, so the default-constructed
quaternion is `(0, 0, 0, 0)`, not the identity rotation. -/
structure Quat where
  x : ℝ
  y : ℝ
  z : ℝ
  w : ℝ

/-- `geometry_msgs/Transform`: a translation plus a rotation quaternion. -/
structure Transform where
  translation : Vec3
  rotation : Quat

/-- The default-constructed `Transform()`: every numeric field is zero. -/
def defaultTransform : Transform :=
  ⟨⟨0, 0, 0⟩, ⟨0, 0, 0, 0⟩⟩

/-- Modelled from the spec wording of C9 only, for comparison with
`defaultTransform`: an identity rigid transform, whose rotation is the
identity quaternion `(x, y, z, w) = (0, 0, 0, 1)`. -/
def identityTransform : Transform :=
  ⟨⟨0, 0, 0⟩, ⟨0, 0, 0, 1⟩⟩

/-- One IMU sample as returned by the `last_imu` service: filtered linear
acceleration `(ax, ay, az)` and filtered angular velocity `(wx, wy, wz)`. -/
structure ImuSample where
  ax : ℝ
  ay : ℝ
  az : ℝ
  wx : ℝ
  wy : ℝ
  wz : ℝ

/-- The all-zero IMU sample. -/
def zeroImu : ImuSample := ⟨0, 0, 0, 0, 0, 0⟩

/-- `self.hertz = 10`. -/
def hertz : ℕ := 10

/-- `self.calTime = 5` (calibration time in seconds). -/
def calTime : ℕ := 5

/-- `self.dt = 1./self.hertz`. -/
def dt : ℝ := 1 / (hertz : ℝ)

/-- `int(self.hertz*self.calTime)`: number of calibration sample slots. -/
def numCalSamples : ℕ := hertz * calTime

/-- `self.initial_position_uncertainty = 0.10`. -/
def initial_position_uncertainty : ℝ := 0.10

/-- `self.initial_orientation_uncertainty = 0.3`. -/
def initial_orientation_uncertainty : ℝ := 0.3

/-- `self.camera_position_error = 0.05`. -/
def camera_position_error : ℝ := 0.05

/-- `self.camera_orientation_error = 0.1`. -/
def camera_orientation_error : ℝ := 0.1

/-- `self.C_lin`: the position measurement matrix over state `(x, vx, y, vy)`. -/
def C_lin : Matrix (Fin 2) (Fin 4) ℝ := !![1, 0, 0, 0; 0, 0, 1, 0]

/-- `self.C_ang = 1.`. -/
def C_ang : ℝ := 1

/-- `self.G_lin`: the transposed position IMU input matrix (4 x 2). -/
def G_lin : Matrix (Fin 4) (Fin 2) ℝ :=
  !![0.5 * dt ^ 2, 0; dt, 0; 0, 0.5 * dt ^ 2; 0, dt]

/-- `self.G_ang = self.dt`. -/
def G_ang : ℝ := dt

/-- `self.A_lin`: constant-velocity translation dynamics over `(x, vx, y, vy)`. -/
def A_lin : Matrix (Fin 4) (Fin 4) ℝ :=
  !![1, dt, 0, 0; 0, 1, 0, 0; 0, 0, 1, dt; 0, 0, 0, 1]

/-- `self.A_ang = 1.`. -/
def A_ang : ℝ := 1

/-- The estimator state of the node while the filter is running: the fields
assigned in `run` before the loop plus the construction-time measurement
slot `z` and dirty flag `updateFlag`. -/
structure KFState where
  x_lin : Fin 2 → ℝ
  v_lin : Fin 2 → ℝ
  psi : ℝ
  P_lin : Matrix (Fin 4) (Fin 4) ℝ
  P_ang : ℝ
  Q_lin : Matrix (Fin 4) (Fin 4) ℝ
  Q_ang : ℝ
  R_lin : Matrix (Fin 2) (Fin 2) ℝ
  R_ang : ℝ
  acc_bias : Fin 2 → ℝ
  gyro_bias : ℝ
  z : Transform
  z_position : ℝ
  updateFlag : Bool

/-- The 2-D rotation matrix built from the heading in `timeUpdate`. -/
def rotOf (psi : ℝ) : Matrix (Fin 2) (Fin 2) ℝ :=
  !![Real.cos psi, -Real.sin psi; Real.sin psi, Real.cos psi]

/-- `np.kron(rot, np.eye(2))` for the 2 x 2 rotation `rotOf psi`, written
out entrywise: block `(i, j)` of the 4 x 4 result is `rot i j • eye(2)`. -/
def rotxvOf (psi : ℝ) : Matrix (Fin 4) (Fin 4) ℝ :=
  !![Real.cos psi, 0, -Real.sin psi, 0;
     0, Real.cos psi, 0, -Real.sin psi;
     Real.sin psi, 0, Real.cos psi, 0;
     0, Real.sin psi, 0, Real.cos psi]

/-- `timeUpdate(self, u)`: bias-correct the IMU sample, rotate the corrected
acceleration to the world frame, integrate position, velocity and heading,
and propagate the covariances. -/
def timeUpdate (s : KFState) (u : ImuSample) : KFState :=
  let u_lin : Fin 2 → ℝ := ![u.ax, u.ay] - s.acc_bias
  let u_ang : ℝ := u.wz - s.gyro_bias
  let rot := rotOf s.psi
  let rotxv := rotxvOf s.psi
  { s with
    x_lin := fun i => s.x_lin i + s.v_lin i * dt + 0.5 * rot.mulVec u_lin i * dt ^ 2
    v_lin := fun i => s.v_lin i + rot.mulVec u_lin i * dt
    psi := s.psi + u_ang * dt
    P_lin := A_lin * s.P_lin * A_linᵀ + rotxv * s.Q_lin * rotxvᵀ
    P_ang := s.P_ang + s.Q_ang }

/-- `np.mod(x, y)` for a nonzero modulus `y`: the floored modulo
`x - y * floor(x / y)`.  (`np.mod(x, 0)` is NaN in floating point; that
case is modelled by `npModF` below.  This real-valued version is used
inside `measurementUpdate`, whose angular theorems therefore avoid the
heading `psi = 0`; the NaN behaviour at `psi = 0` is settled separately.) -/
def npMod (x y : ℝ) : ℝ := x - y * (⌊x / y⌋ : ℤ)

/-- The signed angle the code extracts from a measured quaternion:
`2. * np.arccos(z.rotation.w) * np.sign(z.rotation.z)`. -/
def measAngle (q : Quat) : ℝ := 2 * Real.arccos q.w * Real.sign q.z

/-- The angular innovation of `measurementUpdate`: the extracted measured
angle minus `np.mod(self.psi, np.sign(self.psi)*2*np.pi)`. -/
def eAng (psi : ℝ) (q : Quat) : ℝ :=
  measAngle q - npMod psi (Real.sign psi * (2 * Real.pi))

/-- The linear innovation covariance `S_lin = C_lin·P_lin·C_linᵀ + R_lin`. -/
def Slin (s : KFState) : Matrix (Fin 2) (Fin 2) ℝ :=
  C_lin * s.P_lin * C_linᵀ + s.R_lin

/-- The linear Kalman gain `K_lin = P_lin·C_linᵀ·inv(S_lin)`. -/
def Klin (s : KFState) : Matrix (Fin 4) (Fin 2) ℝ :=
  s.P_lin * C_linᵀ * (Slin s)⁻¹

/-- `measurementUpdate(self, z)`.  `np.linalg.inv` raises `LinAlgError`
exactly when its argument is singular (zero determinant, in exact
arithmetic); nothing in the node catches that exception, so the singular
case is modelled as `none` — the node crashes without having mutated any
state field (every assignment in the Python body occurs after `inv`). -/
def measurementUpdate (s : KFState) (z : Transform) : Option KFState :=
  if (Slin s).det = 0 then none else
  let e_lin : Fin 2 → ℝ := ![z.translation.x, z.translation.y] - s.x_lin
  let e_ang : ℝ := eAng s.psi z.rotation
  let S_ang : ℝ := C_ang * s.P_ang * C_ang + s.R_ang
  let K_lin := Klin s
  let K_ang : ℝ := s.P_ang * C_ang / S_ang
  let xv : Fin 4 → ℝ :=
    ![s.x_lin 0, s.v_lin 0, s.x_lin 1, s.v_lin 1] + K_lin.mulVec e_lin
  some { s with
    x_lin := ![xv 0, xv 2]
    v_lin := ![xv 1, xv 3]
    psi := s.psi + K_ang * e_ang
    P_lin := (1 - K_lin * C_lin) * s.P_lin
    updateFlag := false }

/-- `updateAccelBias`: the exponential low-pass filter on the accelerometer
channels, `alpha * bias + (1 - alpha) * sample` with `alpha = 0.8`. -/
def updateAccelBias (bias : Fin 2 → ℝ) (u : ImuSample) : Fin 2 → ℝ :=
  let alpha : ℝ := 0.8
  fun i => alpha * bias i + (1 - alpha) * (![u.ax, u.ay]) i

/-- The collection loop of `calibrateSensors`, one fuel unit per iteration
of the Python `while j < m.shape[1]` loop.  `fetch t` is the outcome of the
`last_imu` service call on attempt `t` (`none` models `ServiceException`).
On success the sample is written to column `j` and `j` is incremented; on
failure `np.zeros(6)` is written to column `j` and `j` is left unchanged,
so the same slot is retried on the next iteration.  The result is `none`
when the loop has not terminated within `fuel` iterations. -/
def calibrateLoop (fetch : ℕ → Option (Fin 6 → ℝ)) :
    ℕ → ℕ → ℕ → (ℕ → Fin 6 → ℝ) → Option (ℕ → Fin 6 → ℝ)
  | 0, j, _, m => if numCalSamples ≤ j then some m else none
  | fuel + 1, j, t, m =>
    if numCalSamples ≤ j then some m
    else
      match fetch t with
      | some u => calibrateLoop fetch fuel (j + 1) (t + 1)
          (fun j' => if j' = j then u else m j')
      | none => calibrateLoop fetch fuel j (t + 1)
          (fun j' => if j' = j then (fun _ => 0) else m j')

/-- The number of successful fetches among attempts `t, t+1, ..., t+k-1`. -/
def succCountIn (fetch : ℕ → Option (Fin 6 → ℝ)) (t : ℕ) : ℕ → ℕ
  | 0 => 0
  | k + 1 => (if (fetch t).isSome then 1 else 0) + succCountIn fetch (t + 1) k

/-- The construction-time mutable fields of the node set in `__init__`. -/
structure NodeInitState where
  updateFlag : Bool
  z : Transform
  needs_to_calibrate : Bool

/-- `KalmanFilter.__init__`: `self.updateFlag = True`, `self.z = Transform()`
(the all-zero default message), `self.needs_to_calibrate = False`. -/
def kalmanFilterCtor : NodeInitState :=
  { updateFlag := true
    z := defaultTransform
    needs_to_calibrate := false }

/-- The filter initialization block of `run`, executed between
`calibrateSensors` and the main loop: it derives the noise model from the
calibration covariance `Q` and mean `mu` and seeds the estimator state from
the contents of the measurement slot `self.z`, carrying over the current
dirty flag.  `Q[:2,:2]` and `Q[5,5]` are the accelerometer x/y block and
the gyroscope z variance. -/
def runInit (flag : Bool) (z : Transform) (Q : Matrix (Fin 6) (Fin 6) ℝ)
    (mu : Fin 6 → ℝ) : KFState :=
  { x_lin := ![z.translation.x, z.translation.y]
    v_lin := ![0, 0]
    psi := 2 * Real.arccos z.rotation.w * Real.sign z.rotation.z
    P_lin := initial_position_uncertainty ^ 2 • Matrix.diagonal ![1, 0, 1, 0]
    P_ang := initial_orientation_uncertainty ^ 2
    Q_lin := G_lin * !![Q 0 0, Q 0 1; Q 1 0, Q 1 1] * G_linᵀ
    Q_ang := G_ang * Q 5 5 * G_ang
    R_lin := camera_position_error ^ 2 • (1 : Matrix (Fin 2) (Fin 2) ℝ)
    R_ang := camera_orientation_error ^ 2
    acc_bias := ![mu 0, mu 1]
    gyro_bias := mu 5
    z := z
    z_position := 0
    updateFlag := flag }

/-- The conditional correction step of each `run` loop iteration:
`if self.updateFlag: self.measurementUpdate(self.z)`. -/
def correctPhase (s : KFState) : Option KFState :=
  if s.updateFlag then measurementUpdate s s.z else some s

/-- NaN-faithful model of `np.mod`: `np.mod(x, 0)` is NaN in floating
point (modelled as `none`); for a nonzero modulus it agrees with `npMod`. -/
def npModF (x y : ℝ) : Option ℝ :=
  if y = 0 then none else some (npMod x y)

/-- NaN-faithful model of the angular innovation on lines 78-79 of the
source: a NaN heading reduction makes the innovation NaN. -/
def eAngF (psi : ℝ) (q : Quat) : Option ℝ :=
  (npModF psi (Real.sign psi * (2 * Real.pi))).map fun r => measAngle q - r

/-- NaN-faithful model of the heading update `self.psi += K_ang*e_ang` on
line 90 of the source: a NaN innovation makes the stored heading NaN. -/
def psiPostF (psi : ℝ) (K_ang : ℝ) (q : Quat) : Option ℝ :=
  (eAngF psi q).map fun e => psi + K_ang * e

/-- A concrete estimator state with `P_lin = 0` and `R_lin = 0`, making the
linear innovation covariance `S_lin` exactly singular (the edge case named
by the spec: zero `R_lin` and zero `P_lin`). -/
def singularState : KFState :=
  { x_lin := ![0, 0]
    v_lin := ![0, 0]
    psi := 0
    P_lin := 0
    P_ang := 0
    Q_lin := 0
    Q_ang := 0
    R_lin := 0
    R_ang := 0
    acc_bias := ![0, 0]
    gyro_bias := 0
    z := defaultTransform
    z_position := 0
    updateFlag := true }

/-- A concrete estimator state with `P_lin = 0` and `R_lin = I`, for which
`S_lin = I` is nonsingular and the measurement update completes. -/
def regularState : KFState :=
  { x_lin := ![0, 0]
    v_lin := ![0, 0]
    psi := 0
    P_lin := 0
    P_ang := 0
    Q_lin := 0
    Q_ang := 0
    R_lin := 1
    R_ang := 0
    acc_bias := ![0, 0]
    gyro_bias := 0
    z := defaultTransform
    z_position := 0
    updateFlag := true }

/-- A concrete estimator state with zero biases, nonzero velocity, zero
process noise, and a positive-semidefinite linear covariance with negative
position-velocity cross-covariance. -/
def driftState : KFState :=
  { x_lin := ![0, 0]
    v_lin := ![1, 0]
    psi := 0
    P_lin := !![1, -1, 0, 0; -1, 1, 0, 0; 0, 0, 0, 0; 0, 0, 0, 0]
    P_ang := 0
    Q_lin := 0
    Q_ang := 0
    R_lin := 1
    R_ang := 0
    acc_bias := ![0, 0]
    gyro_bias := 0
    z := defaultTransform
    z_position := 0
    updateFlag := false }

/-- The quaternion of a measured orientation at angle `0`:
`w = cos 0 = 1`, `z = sin 0 = 0`. -/
def qZero : Quat := ⟨0, 0, 0, 1⟩

/-- A sample source whose very first fetch raises `ServiceException` and
whose later fetches all succeed (with a constant unit sample). -/
def oneFailFetch : ℕ → Option (Fin 6 → ℝ) :=
  fun t => if t = 0 then none else some fun _ => 1

/-- The initial contents of the calibration sample array (`np.empty`,
modelled as zeros; no claim depends on the initial contents). -/
def emptyCal : ℕ → Fin 6 → ℝ := fun _ _ => 0

/-! ## Theorems -/

/-- C8: for every starting bias `b0` and accelerometer sample `s`, the bias
tracker with `alpha = 0.8` yields exactly `0.8*b0 + 0.2*s`, componentwise
on the x and y accelerometer channels. -/
theorem kf_c8_bias_update (b : Fin 2 → ℝ) (u : ImuSample) :
    updateAccelBias b u 0 = 0.8 * b 0 + 0.2 * u.ax ∧
    updateAccelBias b u 1 = 0.8 * b 1 + 0.2 * u.ay := by
  constructor <;> · simp [updateAccelBias]; norm_num

/-- C5: the initialization block of `run` seeds position directly from the
pose reading in the measurement slot, seeds the heading from that reading's
quaternion, and initializes velocity to zero, for every slot content,
calibration output and dirty-flag value. -/
theorem kf_c5_seed (flag : Bool) (z : Transform) (Q : Matrix (Fin 6) (Fin 6) ℝ)
    (mu : Fin 6 → ℝ) :
    (runInit flag z Q mu).x_lin = ![z.translation.x, z.translation.y] ∧
    (runInit flag z Q mu).v_lin = ![0, 0] ∧
    (runInit flag z Q mu).psi = 2 * Real.arccos z.rotation.w * Real.sign z.rotation.z :=
  ⟨rfl, rfl, rfl⟩

/-- C10: when the heading is exactly `0`, the reduction
`np.mod(psi, np.sign(psi)*2*pi)` is `np.mod(0, 0)`, which is NaN in
floating point, so the angular innovation and the updated heading are NaN
(`none` in the NaN-faithful model) for every measured quaternion and gain. -/
theorem kf_c10_nan_heading (q : Quat) (K_ang : ℝ) :
    eAngF 0 q = none ∧ psiPostF 0 K_ang q = none := by
  refine ⟨?_, ?_⟩ <;> simp [eAngF, psiPostF, npModF]

/-- C1 (amended): when the linear innovation covariance is singular, the
inversion inside `measurementUpdate` raises an uncaught exception: the
update neither completes nor returns the prior state, and there is no
`SingularCovariance` signal in the code. -/
theorem kf_c1_singular_raises (s : KFState) (z : Transform)
    (h : (Slin s).det = 0) :
    measurementUpdate s z = none := by
  simp [measurementUpdate, h]

/-- C1 counterexample: at the concrete state with `P_lin = 0` and
`R_lin = 0` (singular `S_lin`), `measurementUpdate` does not return the
prior state unchanged; it raises (`none`), contradicting the claimed
skip-and-signal behaviour. -/
theorem kf_c1_counterexample :
    measurementUpdate singularState defaultTransform = none ∧
    measurementUpdate singularState defaultTransform ≠ some singularState := by
  have h : (Slin singularState).det = 0 := by
    simp [Slin, singularState]
  refine ⟨by simp [measurementUpdate, h], by simp [measurementUpdate, h]⟩

/-- C1 witness: the singular hypothesis is satisfiable at a concrete state
and the amended theorem applies there. -/
theorem kf_c1_witness :
    (Slin singularState).det = 0 ∧
    measurementUpdate singularState defaultTransform = none :=
  ⟨by simp [Slin, singularState],
   kf_c1_singular_raises singularState defaultTransform
     (by simp [Slin, singularState])⟩

/-- C6: whenever the measurement update completes (the innovation
covariance is nonsingular), the linear covariance becomes
`(I - K_lin*C_lin)*P_lin` and the angular covariance is left unchanged. -/
theorem kf_c6_cov_update (s : KFState) (z : Transform)
    (h : (Slin s).det ≠ 0) :
    ∃ s', measurementUpdate s z = some s' ∧
      s'.P_lin = (1 - Klin s * C_lin) * s.P_lin ∧
      s'.P_ang = s.P_ang := by
  unfold measurementUpdate
  rw [if_neg h]
  exact ⟨_, rfl, rfl, rfl⟩

/-- C6 witness: at a concrete state with `P_lin = 0` and `R_lin = I` the
innovation covariance is nonsingular and the theorem applies. -/
theorem kf_c6_witness :
    ∃ s', measurementUpdate regularState defaultTransform = some s' ∧
      s'.P_lin = (1 - Klin regularState * C_lin) * regularState.P_lin ∧
      s'.P_ang = regularState.P_ang :=
  kf_c6_cov_update regularState defaultTransform
    (by simp [Slin, regularState])

/-- C9 (amended): construction initializes the dirty flag to `True` and the
pending measurement slot to the all-zero default transform (not the
identity rotation), and every `Running` tick whose dirty flag is set runs
the measurement update on the slot contents — in particular the first tick
after startup does, even if no correction event ever arrived. -/
theorem kf_c9_first_tick :
    kalmanFilterCtor.updateFlag = true ∧
    kalmanFilterCtor.z = defaultTransform ∧
    ∀ s : KFState, s.updateFlag = true → correctPhase s = measurementUpdate s s.z :=
  ⟨rfl, rfl, fun _ h => by simp [correctPhase, h]⟩

/-- C9 counterexample: the pending slot is not initialized to an identity
transform — the default ROS transform carries the zero quaternion
`(0,0,0,0)`, whose `w` differs from the identity quaternion's `w = 1`. -/
theorem kf_c9_counterexample : kalmanFilterCtor.z ≠ identityTransform := by
  intro h
  have hw : (0 : ℝ) = 1 :=
    congrArg (fun t => t.rotation.w) h
  norm_num at hw

/-- C9 witness: the flag hypothesis is satisfied at a concrete state with
`updateFlag = true`, where the correct phase runs the measurement update. -/
theorem kf_c9_witness :
    kalmanFilterCtor.updateFlag = true ∧
    correctPhase regularState = measurementUpdate regularState regularState.z :=
  ⟨kf_c9_first_tick.1, kf_c9_first_tick.2.2 regularState rfl⟩

/-- C2 (amended): the collection loop of `calibrateSensors` terminates
within a given number of iterations exactly when those iterations contain
`rate*duration` successful fetches beyond the slots already filled: a
failed fetch writes a zero sample into the current slot but does not
advance it, so the loop runs `50 + (number of failures)` iterations and
runs forever if fetches keep failing. -/
theorem kf_c2_fixed_count (fetch : ℕ → Option (Fin 6 → ℝ)) (fuel j t : ℕ)
    (m : ℕ → Fin 6 → ℝ) :
    (calibrateLoop fetch fuel j t m).isSome = true ↔
      numCalSamples ≤ j + succCountIn fetch t fuel := by
  induction fuel generalizing j t m with
  | zero =>
    rw [calibrateLoop, succCountIn]
    split <;> simp_all
  | succ k ih =>
    rw [calibrateLoop, succCountIn]
    by_cases hj : numCalSamples ≤ j
    · simp only [if_pos hj, Option.isSome_some, true_iff]
      omega
    · rw [if_neg hj]
      cases hfetch : fetch t with
      | some u =>
        rw [ih]
        simp only [hfetch, Option.isSome_some, if_pos]
        omega
      | none =>
        rw [ih]
        simp only [hfetch, Option.isSome_none, Bool.false_eq_true, if_false]
        omega

/-- C2 counterexample: with a source that fails exactly once, the loop has
not completed after `rate*duration = 50` iterations and needs a 51st, so
the loop does not execute exactly `rate*duration` iterations and a failed
slot is not left holding the zero sample. -/
theorem kf_c2_counterexample :
    (calibrateLoop oneFailFetch numCalSamples 0 0 emptyCal).isSome = false ∧
    (calibrateLoop oneFailFetch (numCalSamples + 1) 0 0 emptyCal).isSome = true := by
  constructor <;> decide

/-- Helper: the value of `np.mod(3.5*pi, np.sign(3.5*pi)*2*pi)`. -/
lemma npMod_at_three_and_half_pi :
    npMod (3.5 * Real.pi) (Real.sign (3.5 * Real.pi) * (2 * Real.pi)) =
      1.5 * Real.pi := by
  have hpos : (0 : ℝ) < 3.5 * Real.pi := by positivity
  rw [Real.sign_of_pos hpos, one_mul, npMod]
  have hdiv : 3.5 * Real.pi / (2 * Real.pi) = 1.75 := by
    have hpi := Real.pi_ne_zero
    field_simp
    ring
  rw [hdiv]
  have hfloor : ⌊(1.75 : ℝ)⌋ = 1 := by
    rw [Int.floor_eq_iff]
    norm_num
  rw [hfloor]
  push_cast
  ring

/-- Helper: the measured angle of the quaternion at angle `0` is `0`. -/
lemma measAngle_qZero : measAngle qZero = 0 := by
  simp [measAngle, qZero, Real.arccos_one]

/-- Helper: the angular innovation at heading `3.5*pi` against a measured
orientation at angle `0`. -/
lemma eAng_at_three_and_half_pi :
    eAng (3.5 * Real.pi) qZero = -(1.5 * Real.pi) := by
  rw [eAng, measAngle_qZero, npMod_at_three_and_half_pi, zero_sub]

/-- Helper: bounds on the signed angle the code extracts from a measured
quaternion: it lies in `[-2*pi, 2*pi]` (the endpoints are attained at
`w = -1`), not in the open interval. -/
lemma measAngle_bounds (q : Quat) :
    -(2 * Real.pi) ≤ measAngle q ∧ measAngle q ≤ 2 * Real.pi := by
  have h0 := Real.arccos_nonneg q.w
  have h1 := Real.arccos_le_pi q.w
  rcases Real.sign_apply_eq q.z with hs | hs | hs <;>
    rw [measAngle, hs] <;> constructor <;> nlinarith [Real.pi_pos]

/-- C3 counterexample: for heading `psi = 3.5*pi` and a measured
orientation at angle `0`, the angular innovation computed by the
measurement update is `-1.5*pi`, which does not lie in `(-pi, pi]`. -/
theorem kf_c3_counterexample :
    eAng (3.5 * Real.pi) qZero = -(1.5 * Real.pi) ∧
    ¬(-Real.pi < eAng (3.5 * Real.pi) qZero ∧
      eAng (3.5 * Real.pi) qZero ≤ Real.pi) := by
  refine ⟨eAng_at_three_and_half_pi, ?_⟩
  rw [eAng_at_three_and_half_pi]
  rintro ⟨h, -⟩
  nlinarith [Real.pi_pos]

/-- C3 (amended): for heading `psi = 3.5*pi` and a measured orientation at
angle `0`, the angular innovation is `-1.5*pi` — inside `(-2*pi, 2*pi)`
but not inside `(-pi, pi]`; the heading is reduced by a floored modulo (to
`1.5*pi` here), the measured orientation is converted to a signed angle in
`[-2*pi, 2*pi]`, and their difference receives no further reduction. -/
theorem kf_c3_wrapping :
    eAng (3.5 * Real.pi) qZero = -(1.5 * Real.pi) ∧
    -(2 * Real.pi) < eAng (3.5 * Real.pi) qZero ∧
    eAng (3.5 * Real.pi) qZero < 2 * Real.pi ∧
    npMod (3.5 * Real.pi) (Real.sign (3.5 * Real.pi) * (2 * Real.pi)) =
      1.5 * Real.pi ∧
    ∀ q : Quat, -(2 * Real.pi) ≤ measAngle q ∧ measAngle q ≤ 2 * Real.pi := by
  refine ⟨eAng_at_three_and_half_pi, ?_, ?_, npMod_at_three_and_half_pi,
    measAngle_bounds⟩ <;>
    rw [eAng_at_three_and_half_pi] <;> nlinarith [Real.pi_pos]

/-- Helper: the numeric value of the control period. -/
lemma dt_eq : dt = 1 / 10 := by
  norm_num [dt, hertz]

/-- Helper: with zero measured acceleration and zero accelerometer bias the
corrected linear input of `timeUpdate` is the zero vector. -/
lemma zero_input_u_lin (s : KFState) (hb : s.acc_bias = ![0, 0]) :
    ![zeroImu.ax, zeroImu.ay] - s.acc_bias = (0 : Fin 2 → ℝ) := by
  rw [hb]
  funext i
  fin_cases i <;> simp [zeroImu]

/-- C4 (amended): with zero measured acceleration, zero measured angular
rate and zero biases, `timeUpdate` leaves velocity and heading unchanged,
advances position by exactly `velocity * dt` (so position is unchanged
only when velocity is zero), and the angular covariance is non-decreasing
whenever the angular process noise is nonnegative; the trace of the linear
covariance is not in general non-decreasing. -/
theorem kf_c4_zero_input (s : KFState) (hb : s.acc_bias = ![0, 0])
    (hg : s.gyro_bias = 0) (hq : 0 ≤ s.Q_ang) :
    (timeUpdate s zeroImu).x_lin = (fun i => s.x_lin i + s.v_lin i * dt) ∧
    (timeUpdate s zeroImu).v_lin = s.v_lin ∧
    (timeUpdate s zeroImu).psi = s.psi ∧
    s.P_ang ≤ (timeUpdate s zeroImu).P_ang := by
  have hu := zero_input_u_lin s hb
  refine ⟨?_, ?_, ?_, ?_⟩
  · funext i
    show s.x_lin i + s.v_lin i * dt +
        0.5 * (rotOf s.psi).mulVec (![zeroImu.ax, zeroImu.ay] - s.acc_bias) i * dt ^ 2 = _
    rw [hu, Matrix.mulVec_zero]
    show s.x_lin i + s.v_lin i * dt + 0.5 * 0 * dt ^ 2 = _
    ring
  · funext i
    show s.v_lin i + (rotOf s.psi).mulVec (![zeroImu.ax, zeroImu.ay] - s.acc_bias) i * dt = _
    rw [hu, Matrix.mulVec_zero]
    show s.v_lin i + 0 * dt = _
    ring
  · show s.psi + (zeroImu.wz - s.gyro_bias) * dt = s.psi
    rw [hg]
    show s.psi + ((0 : ℝ) - 0) * dt = s.psi
    ring
  · show s.P_ang ≤ s.P_ang + s.Q_ang
    linarith

/-- C4 witness: the zero-bias hypotheses are satisfiable at a concrete
state and the amended theorem applies there. -/
theorem kf_c4_witness :
    (timeUpdate singularState zeroImu).x_lin =
      (fun i => singularState.x_lin i + singularState.v_lin i * dt) ∧
    (timeUpdate singularState zeroImu).v_lin = singularState.v_lin ∧
    (timeUpdate singularState zeroImu).psi = singularState.psi ∧
    singularState.P_ang ≤ (timeUpdate singularState zeroImu).P_ang :=
  kf_c4_zero_input singularState rfl rfl le_rfl

/-- Helper: the linear covariance of `driftState` is positive semidefinite
(its quadratic form is `(x0 - x1)^2`). -/
lemma driftState_P_posSemidef : driftState.P_lin.PosSemidef := by
  constructor
  · show (driftState.P_lin)ᴴ = driftState.P_lin
    ext i j
    fin_cases i <;> fin_cases j <;>
      simp [driftState, Matrix.conjTranspose_apply, Matrix.vecHead,
        Matrix.vecTail]
  · intro x
    have hexp : dotProduct (star x) (driftState.P_lin *ᵥ x) =
        (x 0 - x 1) ^ 2 := by
      simp [driftState, dotProduct, Matrix.mulVec, Fin.sum_univ_four,
        Matrix.vecHead, Matrix.vecTail]
      ring
    rw [hexp]
    positivity

/-- C4 counterexample: a valid zero-bias, zero-process-noise state with
unit velocity and positive-semidefinite linear covariance for which the
zero-input `timeUpdate` moves the position and strictly decreases the
trace of the linear covariance. -/
theorem kf_c4_counterexample :
    driftState.P_lin.PosSemidef ∧ driftState.Q_lin.PosSemidef ∧
    driftState.acc_bias = ![0, 0] ∧ driftState.gyro_bias = 0 ∧
    (0 : ℝ) ≤ driftState.Q_ang ∧
    (timeUpdate driftState zeroImu).x_lin ≠ driftState.x_lin ∧
    (timeUpdate driftState zeroImu).P_lin.trace < driftState.P_lin.trace := by
  have hu := zero_input_u_lin driftState rfl
  have hP2 : (timeUpdate driftState zeroImu).P_lin =
      A_lin * driftState.P_lin * A_linᵀ := by
    show A_lin * driftState.P_lin * A_linᵀ +
        rotxvOf driftState.psi * driftState.Q_lin * (rotxvOf driftState.psi)ᵀ = _
    rw [show driftState.Q_lin = 0 from rfl, Matrix.mul_zero, Matrix.zero_mul,
      add_zero]
  refine ⟨driftState_P_posSemidef, Matrix.PosSemidef.zero, rfl, rfl, le_rfl, ?_, ?_⟩
  · intro h
    have h0 := congrFun h 0
    rw [show (timeUpdate driftState zeroImu).x_lin 0 =
        driftState.x_lin 0 + driftState.v_lin 0 * dt +
          0.5 * (rotOf driftState.psi).mulVec
            (![zeroImu.ax, zeroImu.ay] - driftState.acc_bias) 0 * dt ^ 2
      from rfl, hu, Matrix.mulVec_zero] at h0
    simp [driftState, dt_eq] at h0
  · rw [hP2]
    have htr : (A_lin * driftState.P_lin * A_linᵀ).trace = 181 / 100 := by
      simp [Matrix.trace, Matrix.diag, Fin.sum_univ_four, Matrix.mul_apply,
        A_lin, driftState, dt_eq, Matrix.transpose_apply, Matrix.vecHead,
        Matrix.vecTail]
      norm_num
    have htr2 : driftState.P_lin.trace = 2 := by
      simp [Matrix.trace, Matrix.diag, Fin.sum_univ_four, driftState,
        Matrix.vecHead, Matrix.vecTail]
      norm_num
    rw [htr, htr2]
    norm_num

/-- Helper: over the reals the conjugate transpose is the transpose. -/
lemma conjT_real {p q : Type*} (A : Matrix p q ℝ) : Aᴴ = Aᵀ :=
  Matrix.conjTranspose_eq_transpose_of_trivial A

/-- Helper (Kalman posterior positivity): for positive-semidefinite `P` and
`R` and a nonsingular innovation covariance `S = C*P*Cᵀ + R`, the posterior
covariance `(I - P*Cᵀ*S⁻¹*C)*P` is positive semidefinite. -/
lemma kalman_posterior_posSemidef {n m : Type*} [Fintype n] [Fintype m]
    [DecidableEq n] [DecidableEq m]
    (P : Matrix n n ℝ) (C : Matrix m n ℝ) (R : Matrix m m ℝ)
    (hP : P.PosSemidef) (hR : R.PosSemidef)
    (hdet : (C * P * Cᵀ + R).det ≠ 0) :
    ((1 - P * Cᵀ * (C * P * Cᵀ + R)⁻¹ * C) * P).PosSemidef := by
  obtain ⟨S, hS⟩ : ∃ M, M = C * P * Cᵀ + R := ⟨_, rfl⟩
  rw [← hS] at hdet ⊢
  have hPt : Pᵀ = P := by rw [← conjT_real]; exact hP.1
  have hRt : Rᵀ = R := by rw [← conjT_real]; exact hR.1
  have hSt : Sᵀ = S := by
    rw [hS, Matrix.transpose_add, Matrix.transpose_mul, Matrix.transpose_mul,
      Matrix.transpose_transpose, hPt, hRt, Matrix.mul_assoc]
  have hU : IsUnit S.det := isUnit_iff_ne_zero.mpr hdet
  have hSinvT : (S⁻¹)ᵀ = S⁻¹ := by
    rw [Matrix.transpose_nonsing_inv, hSt]
  have key : (1 - P * Cᵀ * S⁻¹ * C) * P = P - P * Cᵀ * S⁻¹ * (C * P) := by
    rw [sub_mul, one_mul]
    simp only [Matrix.mul_assoc]
  rw [key]
  have hHerm : (P - P * Cᵀ * S⁻¹ * (C * P)).IsHermitian := by
    have ht : (P - P * Cᵀ * S⁻¹ * (C * P))ᵀ = P - P * Cᵀ * S⁻¹ * (C * P) := by
      simp only [Matrix.transpose_sub, Matrix.transpose_mul,
        Matrix.transpose_transpose, hPt, hSinvT, Matrix.mul_assoc]
    show _ᴴ = _
    rw [conjT_real]
    exact ht
  refine ⟨hHerm, fun x => ?_⟩
  have hstar : star x = x := by
    funext i
    simp
  rw [hstar]
  obtain ⟨p, hp⟩ : ∃ v, v = P *ᵥ x := ⟨_, rfl⟩
  obtain ⟨c, hc⟩ : ∃ v, v = (C * P) *ᵥ x := ⟨_, rfl⟩
  obtain ⟨u, hu⟩ : ∃ v, v = S⁻¹ *ᵥ c := ⟨_, rfl⟩
  have hSu : S *ᵥ u = c := by
    rw [hu, Matrix.mulVec_mulVec, Matrix.mul_nonsing_inv _ hU, Matrix.one_mulVec]
  have hxBu : dotProduct x ((P * Cᵀ) *ᵥ u) = dotProduct c u := by
    rw [Matrix.dotProduct_mulVec]
    congr 1
    rw [← Matrix.mulVec_transpose, Matrix.transpose_mul,
      Matrix.transpose_transpose, hPt]
    exact hc.symm
  have hCp : C *ᵥ p = c := by
    rw [hp, Matrix.mulVec_mulVec]
    exact hc.symm
  have hT3 : dotProduct (Cᵀ *ᵥ u) p = dotProduct c u := by
    rw [Matrix.dotProduct_comm, Matrix.dotProduct_mulVec,
      Matrix.vecMul_transpose, hCp]
  have hT4 : dotProduct (Cᵀ *ᵥ u) ((P * Cᵀ) *ᵥ u) =
      dotProduct c u - dotProduct u (R *ᵥ u) := by
    have hCB : C * (P * Cᵀ) = S - R := by
      rw [hS, add_sub_cancel_right, Matrix.mul_assoc]
    rw [Matrix.dotProduct_comm, Matrix.dotProduct_mulVec,
      Matrix.vecMul_transpose, Matrix.mulVec_mulVec, hCB, Matrix.sub_mulVec,
      hSu, Matrix.sub_dotProduct, Matrix.dotProduct_comm (R *ᵥ u) u]
  have hRu : (0 : ℝ) ≤ dotProduct u (R *ᵥ u) := by
    have h := hR.2 u
    rwa [show star u = u from by funext i; simp] at h
  have hkey : (0 : ℝ) ≤ dotProduct (x - Cᵀ *ᵥ u) (P *ᵥ (x - Cᵀ *ᵥ u)) := by
    have h := hP.2 (x - Cᵀ *ᵥ u)
    rwa [show star (x - Cᵀ *ᵥ u) = x - Cᵀ *ᵥ u from by funext i; simp] at h
  have hexp : dotProduct (x - Cᵀ *ᵥ u) (P *ᵥ (x - Cᵀ *ᵥ u)) =
      dotProduct x p - dotProduct c u - dotProduct u (R *ᵥ u) := by
    rw [Matrix.mulVec_sub, Matrix.mulVec_mulVec, ← hp, Matrix.sub_dotProduct,
      Matrix.dotProduct_sub, Matrix.dotProduct_sub, hxBu, hT3, hT4]
    ring
  have hmain : dotProduct x ((P - P * Cᵀ * S⁻¹ * (C * P)) *ᵥ x) =
      dotProduct x p - dotProduct c u := by
    rw [Matrix.sub_mulVec, Matrix.dotProduct_sub, ← hp]
    congr 1
    rw [← Matrix.mulVec_mulVec, ← hc, ← Matrix.mulVec_mulVec, ← hu]
    exact hxBu
  rw [hmain]
  rw [hexp] at hkey
  linarith

/-- C7: in exact arithmetic, if the linear covariance and the noise
matrices `Q_lin` and `R_lin` are symmetric positive semidefinite, then the
linear covariance stays symmetric positive semidefinite after `timeUpdate`
and after every completing `measurementUpdate`. -/
theorem kf_c7_psd_invariant (s : KFState) (u : ImuSample) (z : Transform)
    (hP : s.P_lin.PosSemidef) (hQ : s.Q_lin.PosSemidef)
    (hR : s.R_lin.PosSemidef) :
    (timeUpdate s u).P_lin.PosSemidef ∧
    ∀ s', measurementUpdate s z = some s' → s'.P_lin.PosSemidef := by
  constructor
  · have h1 := hP.mul_mul_conjTranspose_same A_lin
    have h2 := hQ.mul_mul_conjTranspose_same (rotxvOf s.psi)
    rw [conjT_real] at h1 h2
    exact h1.add h2
  · intro s' hs'
    by_cases hdet : (Slin s).det = 0
    · simp [measurementUpdate, hdet] at hs'
    · have hpsd := kalman_posterior_posSemidef s.P_lin C_lin s.R_lin hP hR
        (by simpa [Slin] using hdet)
      unfold measurementUpdate at hs'
      rw [if_neg hdet] at hs'
      injection hs' with h
      subst h
      simpa [Klin, Slin] using hpsd

/-- C7 witness: the three positive-semidefiniteness hypotheses are
satisfiable at a concrete state (`P_lin = 0`, `Q_lin = 0`, `R_lin = I`)
and the theorem applies there. -/
theorem kf_c7_witness :
    (timeUpdate regularState zeroImu).P_lin.PosSemidef ∧
    ∀ s', measurementUpdate regularState defaultTransform = some s' →
      s'.P_lin.PosSemidef :=
  kf_c7_psd_invariant regularState zeroImu defaultTransform
    Matrix.PosSemidef.zero Matrix.PosSemidef.zero Matrix.PosSemidef.one

end KF

end
